import Mathlib

/-!
Verification of `internal/engine/stmt_list.go`: the statement-sequence
container matcher (`stmtSliceContainerMatcher`), the corresponding replacer
(`stmtSliceContainerReplacer`), the pattern compilation entry points
(`compilePGoStmtList`), and the shape metadata (`stmtListData`) they share.

The Go code works by reflection over `*ast.BlockStmt`, `*ast.CaseClause` and
`*ast.CommClause`.  The embedding makes the three struct layouts explicit
(`Node`), represents `reflect.Value`s of fields as a small closed sum
(`FieldVal`), and keeps the generic field iteration of the source
(`List.enum` + partition by field name) rather than specialising it per shape.
Statement and expression payloads are opaque (`Nat`).
-/

namespace GoPatch

/-- Opaque stand-in for an `ast.Stmt` value inside a statement slice. -/
abbrev Stmt := Nat

/-- Opaque stand-in for an `ast.Expr` value (e.g. a case clause's exprs). -/
abbrev Expr := Nat

/-- `Region` from the engine: a byte range `[Pos, End]` of the original
source, with `token.Pos` embedded as `Int`. -/
structure Region where
  Pos : Int
  End : Int
deriving DecidableEq, Repr

/-- A `reflect.Value` of one field of a container node: a `token.Pos`, a
`[]ast.Stmt`, a `[]ast.Expr`, or a single (possibly nil) `ast.Stmt`. -/
inductive FieldVal
  | pos (p : Int)
  | stmts (l : List Stmt)
  | exprs (l : List Expr)
  | stmt (s : Option Stmt)
deriving DecidableEq, Repr

/-- `stmtListField`: index of a field in the container type together with its
captured value. -/
structure stmtListField where
  FieldIdx : Nat
  Value : FieldVal
deriving DecidableEq, Repr

/-- The `reflect.Type` stored in `stmtListData.Type`; per the source comment
it is one of `BlockStmt`, `CaseClause`, or `CommClause`. -/
inductive NodeType
  | blockStmt
  | caseClause
  | commClause
deriving DecidableEq, Repr

/-- `stmtListData`: shape metadata captured by a successful container match
and consumed by the replacer.  (`Type` in Go is spelled `type` here because
`Type` is reserved in Lean.) -/
structure stmtListData where
  type : NodeType
  StmtFieldIdx : Nat
  OtherFields : List stmtListField
  UnchangedRegion : Region
deriving DecidableEq, Repr

/-- Keys of the binding context: the private `stmtListKey` plus opaque user
keys. -/
inductive Key
  | stmtListKey
  | user (n : Nat)
deriving DecidableEq, Repr

/-- Values stored in the binding context. -/
inductive DVal
  | stmtList (sd : stmtListData)
  | user (n : Nat)
deriving DecidableEq, Repr

/-- The immutable binding context (`data.Data`), extended by consing. -/
abbrev Data := List (Key × DVal)

/-- `data.WithValue`: pure copy-on-extend of the binding context. -/
def WithValue (d : Data) (k : Key) (v : DVal) : Data := (k, v) :: d

/-- Untyped lookup in the binding context: the most recent binding wins. -/
def lookupValue : Data → Key → Option DVal
  | [], _ => none
  | (k', v) :: rest, k => if k' = k then some v else lookupValue rest k

/-- `data.Lookup(d, stmtListKey, &sd)`: typed lookup of the shape metadata. -/
def lookupStmtList (d : Data) : Option stmtListData :=
  match lookupValue d Key.stmtListKey with
  | some (DVal.stmtList sd) => some sd
  | _ => none

/-- A concrete AST node that may sit behind the pointer handed to `Match`.
The three container shapes carry the exact field layout of `ast.BlockStmt`
(`Lbrace`, `List`, `Rbrace`), `ast.CaseClause` (`Case`, `List`, `Colon`,
`Body`) and `ast.CommClause` (`Case`, `Comm`, `Colon`, `Body`); `other`
stands for every other struct shape, with arbitrary named fields. -/
inductive Node
  | blockStmt (lbrace : Int) (list : List Stmt) (rbrace : Int)
  | caseClause (casePos : Int) (list : List Expr) (colon : Int) (body : List Stmt)
  | commClause (casePos : Int) (comm : Option Stmt) (colon : Int) (body : List Stmt)
  | other (kind : Nat) (flds : List (String × FieldVal))
deriving DecidableEq, Repr

/-- The named fields of a node, in Go struct declaration order (what the
`for i := 0; i < t.NumField(); i++` loop of `Match` iterates over). -/
def Node.fieldsOf : Node → List (String × FieldVal)
  | .blockStmt l xs rb =>
      [("Lbrace", .pos l), ("List", .stmts xs), ("Rbrace", .pos rb)]
  | .caseClause c es k b =>
      [("Case", .pos c), ("List", .exprs es), ("Colon", .pos k), ("Body", .stmts b)]
  | .commClause c s k b =>
      [("Case", .pos c), ("Comm", .stmt s), ("Colon", .pos k), ("Body", .stmts b)]
  | .other _ flds => flds

/-- Number of fields of the node (`t.NumField()`). -/
def Node.numFields (n : Node) : Nat := n.fieldsOf.length

/-- The `switch t` of `Match` (stmt_list.go lines 79-88): for a recognized
container shape, the type tag, the name of the statement-list field, and
`stmtPreludeEnd` (for blocks the incoming `r.Pos`, i.e. the position of the
opening brace; for case/comm clauses the `Colon` field). -/
def shapeInfo : Node → Region → Option (NodeType × String × Int)
  | .blockStmt .., r => some (NodeType.blockStmt, "List", r.Pos)
  | .caseClause _ _ colon _, _ => some (NodeType.caseClause, "Body", colon)
  | .commClause _ _ colon _, _ => some (NodeType.commClause, "Body", colon)
  | .other .., _ => none

/-- A target `reflect.Value`: either a pointer to a node, or a value of some
non-pointer kind (`t.Kind() != reflect.Ptr`). -/
inductive Value
  | ptr (n : Node)
  | nonPtr (kind : Nat)
deriving DecidableEq, Repr

/-- `t.Kind() == reflect.Ptr` for a target value. -/
def Value.isPtr : Value → Bool
  | .ptr _ => true
  | .nonPtr _ => false

/-- `stmtSliceContainerMatcher`: holds the compiled matcher for the `[]Stmt`
field.  The delegate has the signature of `Matcher.Match`
(`(v reflect.Value, d data.Data, r Region) → (data.Data, bool)`). -/
structure stmtSliceContainerMatcher where
  Stmts : FieldVal → Data → Region → Data × Bool

/-- `stmtSliceContainerMatcher.Match` (stmt_list.go lines 58-116), embedded
step for step: reject non-pointers; classify the dereferenced node via
`shapeInfo`; partition the fields into the statement-list field and the
others; advance `r.Pos` to `stmtPreludeEnd + 1`; delegate to `Stmts` with the
context extended by the captured `stmtListData`. -/
def stmtSliceContainerMatcher.Match (m : stmtSliceContainerMatcher)
    (v : Value) (d : Data) (r : Region) : Data × Bool :=
  match v with
  | .nonPtr _ => (d, false)
  | .ptr n =>
    match shapeInfo n r with
    | none => (d, false)
    | some (ty, stmtField, stmtPreludeEnd) =>
      let indexed := n.fieldsOf.enum
      let fields : List stmtListField := indexed.filterMap fun p =>
        if p.2.1 = stmtField then none else some ⟨p.1, p.2.2⟩
      let stmtsField : stmtListField :=
        (indexed.findSome? fun p =>
          if p.2.1 = stmtField then some (⟨p.1, p.2.2⟩ : stmtListField)
          else none).getD ⟨0, FieldVal.pos 0⟩
      let newPos := stmtPreludeEnd + 1
      m.Stmts stmtsField.Value
        (WithValue d Key.stmtListKey (DVal.stmtList
          { type := ty
            StmtFieldIdx := stmtsField.FieldIdx
            OtherFields := fields
            UnchangedRegion := { Pos := newPos, End := stmtPreludeEnd } }))
        { r with Pos := newPos }

/-- A statement-list delegate that matches anything and returns the context
it was handed (used to observe the context `Match` builds). -/
def trueDelegate : FieldVal → Data → Region → Data × Bool :=
  fun _ d _ => (d, true)

/-- The change ledger (`Changelog`): the ordered list of `Unchanged` calls
made so far, each a `(startPos, endPos)` pair. -/
structure Changelog where
  entries : List (Int × Int)
deriving DecidableEq, Repr

/-- `Changelog.Unchanged(pos, end)`: append-only recording of a span. -/
def Changelog.Unchanged (cl : Changelog) (p e : Int) : Changelog :=
  ⟨cl.entries ++ [(p, e)]⟩

/-- The signature of the `[]Stmt` replacer collaborator
(`Replacer.Replace(d, cl, pos) → (reflect.Value, error)`); the ledger is
threaded explicitly since Go mutates it in place. -/
abbrev StmtsReplacer := Data → Changelog → Int → Changelog × Except String (List Stmt)

/-- A statement-list replacer that always succeeds with a fixed statement
list and records nothing itself. -/
def constStmtsReplacer (stmts : List Stmt) : StmtsReplacer :=
  fun _ cl _ => (cl, Except.ok stmts)

/-- A statement-list replacer that always fails with a fixed error and
records nothing itself. -/
def errStmtsReplacer (e : String) : StmtsReplacer :=
  fun _ cl _ => (cl, Except.error e)

/-- The zero value of the container struct (`reflect.New(sd.Type).Elem()`):
zero positions, nil slices, nil interface. -/
def zeroFields : NodeType → List FieldVal
  | .blockStmt => [.pos 0, .stmts [], .pos 0]
  | .caseClause => [.pos 0, .exprs [], .pos 0, .stmts []]
  | .commClause => [.pos 0, .stmt none, .pos 0, .stmts []]

def FieldVal.asPos : FieldVal → Int
  | .pos p => p
  | _ => 0

def FieldVal.asStmts : FieldVal → List Stmt
  | .stmts l => l
  | _ => []

def FieldVal.asExprs : FieldVal → List Expr
  | .exprs l => l
  | _ => []

def FieldVal.asStmt : FieldVal → Option Stmt
  | .stmt s => s
  | _ => none

/-- Reassemble the struct value built by the replacer's field writes into a
`Node` of the captured type. -/
def fieldsToNode : NodeType → List FieldVal → Node
  | .blockStmt, f =>
      .blockStmt (f.getD 0 (.pos 0)).asPos (f.getD 1 (.pos 0)).asStmts
        (f.getD 2 (.pos 0)).asPos
  | .caseClause, f =>
      .caseClause (f.getD 0 (.pos 0)).asPos (f.getD 1 (.pos 0)).asExprs
        (f.getD 2 (.pos 0)).asPos (f.getD 3 (.pos 0)).asStmts
  | .commClause, f =>
      .commClause (f.getD 0 (.pos 0)).asPos (f.getD 1 (.pos 0)).asStmt
        (f.getD 2 (.pos 0)).asPos (f.getD 3 (.pos 0)).asStmts

/-- `for _, f := range sd.OtherFields { node.Field(f.FieldIdx).Set(f.Value) }`. -/
def setOtherFields (flds : List stmtListField) (node : List FieldVal) : List FieldVal :=
  flds.foldl (fun nd f => nd.set f.FieldIdx f.Value) node

/-- `stmtSliceContainerReplacer`: holds the compiled replacer for the
`[]Stmt` field. -/
structure stmtSliceContainerReplacer where
  Stmts : StmtsReplacer

/-- `stmtSliceContainerReplacer.Replace` (stmt_list.go lines 144-164),
embedded step for step: look up the shape metadata (else the structural
error); build the fresh node and copy the other fields; run the nested
statement replacer anchored at `sd.UnchangedRegion.End`, propagating its
error unwrapped; place the generated statements at `sd.StmtFieldIdx`; record
the unchanged region with the ledger; return the node behind a pointer. -/
def stmtSliceContainerReplacer.Replace (rep : stmtSliceContainerReplacer)
    (d : Data) (cl : Changelog) (pos : Int) : Changelog × Except String Value :=
  match lookupStmtList d with
  | none => (cl, Except.error "no statement matches found")
  | some sd =>
    let node := setOtherFields sd.OtherFields (zeroFields sd.type)
    match rep.Stmts d cl sd.UnchangedRegion.End with
    | (cl1, Except.error e) => (cl1, Except.error e)
    | (cl1, Except.ok stmts) =>
      let node := node.set sd.StmtFieldIdx (FieldVal.stmts stmts)
      (cl1.Unchanged sd.UnchangedRegion.Pos sd.UnchangedRegion.End,
       Except.ok (Value.ptr (fieldsToNode sd.type node)))

/-- The heap of live nodes, for making `reflect.New`'s allocation explicit;
a node reference is an index into it. -/
abbrev Heap := List Node

/-- `stmtSliceContainerReplacer.Replace` again, with the allocation of
`reflect.New(sd.Type)` made explicit: the fresh node is appended to the heap
and `node.Addr()` is its (fresh) index.  Identical to `Replace` otherwise. -/
def stmtSliceContainerReplacer.ReplaceAlloc (rep : stmtSliceContainerReplacer)
    (d : Data) (heap : Heap) (cl : Changelog) (pos : Int) :
    Changelog × Except String (Heap × Nat) :=
  match lookupStmtList d with
  | none => (cl, Except.error "no statement matches found")
  | some sd =>
    let node := setOtherFields sd.OtherFields (zeroFields sd.type)
    match rep.Stmts d cl sd.UnchangedRegion.End with
    | (cl1, Except.error e) => (cl1, Except.error e)
    | (cl1, Except.ok stmts) =>
      let node := node.set sd.StmtFieldIdx (FieldVal.stmts stmts)
      (cl1.Unchanged sd.UnchangedRegion.Pos sd.UnchangedRegion.End,
       Except.ok (heap ++ [fieldsToNode sd.type node], heap.length))

/-- The `reflect.Type`-style tag of a node, if it is a container shape. -/
def nodeTypeOf : Node → Option NodeType
  | .blockStmt .. => some NodeType.blockStmt
  | .caseClause .. => some NodeType.caseClause
  | .commClause .. => some NodeType.commClause
  | .other .. => none

/-- Whether a node has one of the three recognized container shapes. -/
def isContainer : Node → Bool
  | .blockStmt .. => true
  | .caseClause .. => true
  | .commClause .. => true
  | .other .. => false

/-- The value of the statement-list field of a container node (`.List` for
blocks, `.Body` for clauses); dummy for other shapes. -/
def Node.stmtsVal : Node → FieldVal
  | .blockStmt _ xs _ => .stmts xs
  | .caseClause _ _ _ b => .stmts b
  | .commClause _ _ _ b => .stmts b
  | .other _ _ => .pos 0

/-- The prelude boundary of a container node: the incoming scan position for
blocks, the colon position for case/comm clauses; dummy for other shapes. -/
def Node.stmtPreludeEnd : Node → Region → Int
  | .blockStmt .., r => r.Pos
  | .caseClause _ _ colon _, _ => colon
  | .commClause _ _ colon _, _ => colon
  | .other .., _ => 0

/-- The node with its statement-list field replaced and every other field
kept; identity on non-container shapes. -/
def Node.withStmts : Node → List Stmt → Node
  | .blockStmt l _ rb, s => .blockStmt l s rb
  | .caseClause c es k _, s => .caseClause c es k s
  | .commClause c cm k _, s => .commClause c cm k s
  | .other kk f, _ => .other kk f

/-- A statement of a compiled "before"/"after" pattern: either the wildcard
marker produced by `dotsStmt` (an `ast.ExprStmt` wrapping `pgo.Dots`), or an
ordinary (opaque) pattern statement. -/
inductive PatStmt
  | dots (pos : Int)
  | stmt (s : Nat)
deriving DecidableEq, Repr

/-- `dotsStmt(pos)` (stmt_list.go line 200): the synthetic wildcard
statement. -/
def dotsStmt (pos : Int) : PatStmt := .dots pos

/-- `pgo.StmtList`: the explicit statement list of a top-level statement
pattern. -/
structure StmtList where
  List : List PatStmt
deriving DecidableEq, Repr

/-- The `list` built by both `compilePGoStmtList` functions (stmt_list.go
lines 47-52 and 133-138): leading and trailing `dotsStmt` markers are woven
around the explicit statements, but only when the explicit list is
nonempty; otherwise `list` stays nil. -/
def compiledStmtList (patchStart patchEnd : Int) (slist : StmtList) : List PatStmt :=
  if slist.List.length > 0 then
    dotsStmt patchStart :: (slist.List ++ [dotsStmt patchEnd])
  else []

/-- `matcherCompiler`, restricted to what `compilePGoStmtList` uses: the
patch extent positions and the generic `compile` turning a `[]ast.Stmt`
pattern value into a `Matcher` (an external collaborator, kept abstract as a
function field). -/
structure matcherCompiler where
  patchStart : Int
  patchEnd : Int
  compile : List PatStmt → FieldVal → Data → Region → Data × Bool

/-- `matcherCompiler.compilePGoStmtList` (stmt_list.go lines 46-56). -/
def matcherCompiler.compilePGoStmtList (c : matcherCompiler) (slist : StmtList) :
    stmtSliceContainerMatcher :=
  { Stmts := c.compile (compiledStmtList c.patchStart c.patchEnd slist) }

/-- `replacerCompiler`, restricted to what `compilePGoStmtList` uses. -/
structure replacerCompiler where
  patchStart : Int
  patchEnd : Int
  compile : List PatStmt → StmtsReplacer

/-- `replacerCompiler.compilePGoStmtList` (stmt_list.go lines 132-142). -/
def replacerCompiler.compilePGoStmtList (c : replacerCompiler) (slist : StmtList) :
    stmtSliceContainerReplacer :=
  { Stmts := c.compile (compiledStmtList c.patchStart c.patchEnd slist) }

/-- Matching of the explicit (wildcard-free) pattern statements against a
statement segment: statement for statement, same length. -/
def explicitMatches : List PatStmt → List Stmt → Bool
  | [], [] => true
  | PatStmt.stmt s :: ps, t :: ts => s == t && explicitMatches ps ts
  | _, _ => false

/-- Modelled from the spec: the generic statement-list matcher is an external
collaborator (produced by `matcherCompiler.compile`, which is not part of
this repository slice); per §6 it "must interpret leading/trailing wildcard
markers as skip zero or more statements here", and per §3 the markers allow
"zero or more unmatched statements immediately before and after the explicit
pattern statements".  A leading `dots` permits skipping a prefix of the
target, a trailing `dots` permits skipping a suffix, and the explicit
statements must match a contiguous segment in between. -/
def stmtListMatches (pat : List PatStmt) (target : List Stmt) : Bool :=
  let hasLead : Bool := match pat with | PatStmt.dots _ :: _ => true | _ => false
  let rest := if hasLead then pat.tail else pat
  let hasTrail : Bool :=
    match rest.getLast? with | some (PatStmt.dots _) => true | _ => false
  let expl := if hasTrail then rest.dropLast else rest
  (List.range (target.length + 1)).any fun i =>
    (hasLead || i == 0) &&
    ((List.range (target.length - i + 1)).any fun j =>
      (hasTrail || i + j == target.length) &&
      explicitMatches expl ((target.drop i).take j))

/-- Modelled from the spec: the delegate the external compiler produces for a
compiled statement-list pattern — it matches the handed `[]Stmt` value
against the pattern via `stmtListMatches` and extends nothing. -/
def patternDelegate (pat : List PatStmt) : FieldVal → Data → Region → Data × Bool :=
  fun v d _ => (d, stmtListMatches pat v.asStmts)

/-! ### Helper lemmas -/

/-- Unfolding of `Match` on a block statement: the delegate is called on the
`List` field, with the context extended by the captured metadata, and the
scan position advanced one past the opening brace. -/
theorem Match_blockStmt (m : stmtSliceContainerMatcher) (l rb : Int)
    (xs : List Stmt) (d : Data) (r : Region) :
    m.Match (Value.ptr (Node.blockStmt l xs rb)) d r =
      m.Stmts (FieldVal.stmts xs)
        (WithValue d Key.stmtListKey (DVal.stmtList
          { type := NodeType.blockStmt
            StmtFieldIdx := 1
            OtherFields := [⟨0, FieldVal.pos l⟩, ⟨2, FieldVal.pos rb⟩]
            UnchangedRegion := { Pos := r.Pos + 1, End := r.Pos } }))
        { r with Pos := r.Pos + 1 } := rfl

/-- Unfolding of `Match` on a case clause: the delegate is called on the
`Body` field, and the scan position advances one past the colon. -/
theorem Match_caseClause (m : stmtSliceContainerMatcher) (c k : Int)
    (es : List Expr) (b : List Stmt) (d : Data) (r : Region) :
    m.Match (Value.ptr (Node.caseClause c es k b)) d r =
      m.Stmts (FieldVal.stmts b)
        (WithValue d Key.stmtListKey (DVal.stmtList
          { type := NodeType.caseClause
            StmtFieldIdx := 3
            OtherFields :=
              [⟨0, FieldVal.pos c⟩, ⟨1, FieldVal.exprs es⟩, ⟨2, FieldVal.pos k⟩]
            UnchangedRegion := { Pos := k + 1, End := k } }))
        { r with Pos := k + 1 } := rfl

/-- Unfolding of `Match` on a comm clause: the delegate is called on the
`Body` field, and the scan position advances one past the colon. -/
theorem Match_commClause (m : stmtSliceContainerMatcher) (c k : Int)
    (cm : Option Stmt) (b : List Stmt) (d : Data) (r : Region) :
    m.Match (Value.ptr (Node.commClause c cm k b)) d r =
      m.Stmts (FieldVal.stmts b)
        (WithValue d Key.stmtListKey (DVal.stmtList
          { type := NodeType.commClause
            StmtFieldIdx := 3
            OtherFields :=
              [⟨0, FieldVal.pos c⟩, ⟨1, FieldVal.stmt cm⟩, ⟨2, FieldVal.pos k⟩]
            UnchangedRegion := { Pos := k + 1, End := k } }))
        { r with Pos := k + 1 } := rfl

/-- `Replace` when the shape metadata is absent. -/
theorem Replace_noMetadata (rep : stmtSliceContainerReplacer) (d : Data)
    (cl : Changelog) (pos : Int) (hl : lookupStmtList d = none) :
    rep.Replace d cl pos = (cl, Except.error "no statement matches found") := by
  unfold stmtSliceContainerReplacer.Replace
  rw [hl]

/-- `Replace` when the nested statement replacer fails: the error is passed
through unwrapped and the container records nothing itself. -/
theorem Replace_nestedError (rep : stmtSliceContainerReplacer) (d : Data)
    (cl cl1 : Changelog) (pos : Int) (sd : stmtListData) (e : String)
    (hl : lookupStmtList d = some sd)
    (hR : rep.Stmts d cl sd.UnchangedRegion.End = (cl1, Except.error e)) :
    rep.Replace d cl pos = (cl1, Except.error e) := by
  unfold stmtSliceContainerReplacer.Replace
  rw [hl]
  simp only [hR]

/-- `Replace` when the nested statement replacer succeeds: the node is
rebuilt from the metadata and the region is recorded once, last. -/
theorem Replace_ok (rep : stmtSliceContainerReplacer) (d : Data)
    (cl cl1 : Changelog) (pos : Int) (sd : stmtListData) (stmts : List Stmt)
    (hl : lookupStmtList d = some sd)
    (hR : rep.Stmts d cl sd.UnchangedRegion.End = (cl1, Except.ok stmts)) :
    rep.Replace d cl pos =
      (cl1.Unchanged sd.UnchangedRegion.Pos sd.UnchangedRegion.End,
       Except.ok (Value.ptr (fieldsToNode sd.type
         ((setOtherFields sd.OtherFields (zeroFields sd.type)).set
           sd.StmtFieldIdx (FieldVal.stmts stmts))))) := by
  unfold stmtSliceContainerReplacer.Replace
  rw [hl]
  simp only [hR]

/-- `ReplaceAlloc` when the nested statement replacer succeeds. -/
theorem ReplaceAlloc_ok (rep : stmtSliceContainerReplacer) (d : Data)
    (heap : Heap) (cl cl1 : Changelog) (pos : Int) (sd : stmtListData)
    (stmts : List Stmt)
    (hl : lookupStmtList d = some sd)
    (hR : rep.Stmts d cl sd.UnchangedRegion.End = (cl1, Except.ok stmts)) :
    rep.ReplaceAlloc d heap cl pos =
      (cl1.Unchanged sd.UnchangedRegion.Pos sd.UnchangedRegion.End,
       Except.ok (heap ++ [fieldsToNode sd.type
         ((setOtherFields sd.OtherFields (zeroFields sd.type)).set
           sd.StmtFieldIdx (FieldVal.stmts stmts))], heap.length)) := by
  unfold stmtSliceContainerReplacer.ReplaceAlloc
  rw [hl]
  simp only [hR]

/-- The metadata captured while matching a container node, extracted with the
pass-through delegate, sits at the head of the returned context. -/
theorem lookup_after_Match (n : Node) (d : Data) (r : Region)
    (h : isContainer n = true) :
    ∃ sd : stmtListData,
      (stmtSliceContainerMatcher.Match ⟨trueDelegate⟩ (Value.ptr n) d r).1 =
        WithValue d Key.stmtListKey (DVal.stmtList sd) := by
  cases n with
  | blockStmt l xs rb => exact ⟨_, rfl⟩
  | caseClause c es k b => exact ⟨_, rfl⟩
  | commClause c cm k b => exact ⟨_, rfl⟩
  | other kk f => simp [isContainer] at h

/-- The empty pattern list matches exactly the empty statement list. -/
theorem stmtListMatches_nil (target : List Stmt) :
    stmtListMatches [] target = true ↔ target = [] := by
  constructor
  · intro h
    have h' : ((List.range (target.length + 1)).any fun i =>
        (i == 0) && ((List.range (target.length - i + 1)).any fun j =>
          (i + j == target.length) &&
          explicitMatches [] ((target.drop i).take j))) = true := h
    simp only [List.any_eq_true, List.mem_range, Bool.and_eq_true,
      beq_iff_eq] at h'
    obtain ⟨i, _, hi0, j, _, hj, hm⟩ := h'
    subst hi0
    rw [Nat.zero_add] at hj
    subst hj
    rw [List.drop_zero, List.take_length] at hm
    cases target with
    | nil => rfl
    | cons t ts => simp [explicitMatches] at hm
  · rintro rfl
    rfl

/-- The empty pattern list's match result, as a Boolean function of the
target. -/
theorem stmtListMatches_nil_eq (target : List Stmt) :
    stmtListMatches [] target = target.isEmpty := by
  cases target with
  | nil => rfl
  | cons t ts =>
    simp only [List.isEmpty_cons]
    cases hb : stmtListMatches [] (t :: ts)
    · rfl
    · exact absurd ((stmtListMatches_nil (t :: ts)).mp hb) (by simp)

/-! ### Claim theorems -/

/-- C1: the spec invariant `Pos ≤ End` fails in the code: matching a
`*ast.BlockStmt` whose opening brace is at scan position 5 captures the
unchanged region `⟨6, 5⟩`, and the replacer then records exactly `(6, 5)` —
a degenerate span with `Pos = End + 1 > End` — with the change ledger. -/
theorem c1_degenerate_region_recorded :
    (stmtSliceContainerReplacer.Replace ⟨constStmtsReplacer [7]⟩
        ((stmtSliceContainerMatcher.Match ⟨trueDelegate⟩
          (Value.ptr (Node.blockStmt 5 [7] 9)) [] ⟨5, 20⟩).1)
        ⟨[]⟩ 0).1.entries = [(6, 5)] ∧ ¬ ((6 : Int) ≤ 5) :=
  ⟨rfl, by decide⟩

/-- C2: for every target node of one of the three container shapes, the
unchanged region stored in the shape metadata has `Pos` equal to the
already-advanced scan position (one past the prelude boundary) and `End`
equal to the pre-advance boundary itself, so `Pos = End + 1`. -/
theorem c2_region_start_one_past_end (m : stmtSliceContainerMatcher)
    (n : Node) (d : Data) (r : Region) (h : isContainer n = true) :
    ∃ sd : stmtListData,
      m.Match (Value.ptr n) d r =
        m.Stmts n.stmtsVal (WithValue d Key.stmtListKey (DVal.stmtList sd))
          { r with Pos := n.stmtPreludeEnd r + 1 } ∧
      sd.UnchangedRegion.Pos = n.stmtPreludeEnd r + 1 ∧
      sd.UnchangedRegion.End = n.stmtPreludeEnd r ∧
      sd.UnchangedRegion.Pos = sd.UnchangedRegion.End + 1 := by
  cases n with
  | blockStmt l xs rb => exact ⟨_, Match_blockStmt m l rb xs d r, rfl, rfl, rfl⟩
  | caseClause c es k b => exact ⟨_, Match_caseClause m c k es b d r, rfl, rfl, rfl⟩
  | commClause c cm k b => exact ⟨_, Match_commClause m c k cm b d r, rfl, rfl, rfl⟩
  | other kk f => simp [isContainer] at h

/-- Witness for C2 at a concrete block statement. -/
theorem c2_region_start_one_past_end_witness :
    isContainer (Node.blockStmt 1 [] 2) = true ∧
    ∃ sd : stmtListData,
      stmtSliceContainerMatcher.Match ⟨trueDelegate⟩
          (Value.ptr (Node.blockStmt 1 [] 2)) [] ⟨5, 9⟩ =
        trueDelegate (Node.blockStmt 1 [] 2).stmtsVal
          (WithValue [] Key.stmtListKey (DVal.stmtList sd)) ⟨6, 9⟩ ∧
      sd.UnchangedRegion.Pos = 6 ∧
      sd.UnchangedRegion.End = 5 ∧
      sd.UnchangedRegion.Pos = sd.UnchangedRegion.End + 1 :=
  ⟨rfl, c2_region_start_one_past_end ⟨trueDelegate⟩
    (Node.blockStmt 1 [] 2) [] ⟨5, 9⟩ rfl⟩

/-- C4 counterexample: with an empty explicit statement list, the compiler
inserts no wildcard markers at all — the compiled pattern list is empty —
and the container match (delegating to the spec-modelled statement-list
matcher) fails against a block holding one statement, so the claim that it
"succeeds against any statement sequence" is false. -/
theorem c4_counterexample_empty_pattern_fails :
    compiledStmtList 1 2 ⟨[]⟩ = [] ∧
    (stmtSliceContainerMatcher.Match
        ⟨patternDelegate (compiledStmtList 1 2 ⟨[]⟩)⟩
        (Value.ptr (Node.blockStmt 0 [7] 3)) [] ⟨0, 4⟩).2 = false :=
  ⟨rfl, by decide⟩

/-- C4 amended: leading/trailing wildcard markers are woven in exactly when
the explicit statement list is nonempty; an empty explicit list compiles to
an empty pattern with no markers, which (under the spec-modelled list
matcher) lets the container match succeed only on an empty statement
sequence. -/
theorem c4_amended_wildcards_only_when_nonempty (ps pe l rb : Int)
    (p0 : PatStmt) (rest : List PatStmt) (xs target : List Stmt)
    (d : Data) (r : Region) :
    compiledStmtList ps pe ⟨[]⟩ = [] ∧
    compiledStmtList ps pe ⟨p0 :: rest⟩ =
      dotsStmt ps :: ((p0 :: rest) ++ [dotsStmt pe]) ∧
    stmtListMatches (compiledStmtList ps pe ⟨[]⟩) target = target.isEmpty ∧
    (stmtSliceContainerMatcher.Match
        ⟨patternDelegate (compiledStmtList ps pe ⟨[]⟩)⟩
        (Value.ptr (Node.blockStmt l xs rb)) d r).2 = xs.isEmpty := by
  refine ⟨rfl, ?_, stmtListMatches_nil_eq target, ?_⟩
  · simp [compiledStmtList]
  · rw [Match_blockStmt]
    exact stmtListMatches_nil_eq xs

/-- C5: for every recognized container node, `Match` hands the delegate the
scan region advanced to one byte past the prelude boundary (the incoming
region position for blocks, the colon for clauses), the binding context
extended with the captured shape metadata, and returns exactly the
delegate's result pair, doing no statement matching of its own. -/
theorem c5_advance_extend_delegate (m : stmtSliceContainerMatcher) (n : Node)
    (d : Data) (r : Region) (h : isContainer n = true) :
    ∃ sd : stmtListData,
      sd.UnchangedRegion = ⟨n.stmtPreludeEnd r + 1, n.stmtPreludeEnd r⟩ ∧
      m.Match (Value.ptr n) d r =
        m.Stmts n.stmtsVal (WithValue d Key.stmtListKey (DVal.stmtList sd))
          { r with Pos := n.stmtPreludeEnd r + 1 } := by
  cases n with
  | blockStmt l xs rb => exact ⟨_, rfl, Match_blockStmt m l rb xs d r⟩
  | caseClause c es k b => exact ⟨_, rfl, Match_caseClause m c k es b d r⟩
  | commClause c cm k b => exact ⟨_, rfl, Match_commClause m c k cm b d r⟩
  | other kk f => simp [isContainer] at h

/-- Witness for C5 at a concrete comm clause (colon at 10). -/
theorem c5_advance_extend_delegate_witness :
    isContainer (Node.commClause 1 (some 4) 10 [7]) = true ∧
    ∃ sd : stmtListData,
      sd.UnchangedRegion = ⟨11, 10⟩ ∧
      stmtSliceContainerMatcher.Match ⟨trueDelegate⟩
          (Value.ptr (Node.commClause 1 (some 4) 10 [7])) [] ⟨0, 20⟩ =
        trueDelegate (Node.commClause 1 (some 4) 10 [7]).stmtsVal
          (WithValue [] Key.stmtListKey (DVal.stmtList sd)) ⟨11, 20⟩ :=
  ⟨rfl, c5_advance_extend_delegate ⟨trueDelegate⟩
    (Node.commClause 1 (some 4) 10 [7]) [] ⟨0, 20⟩ rfl⟩

/-- C9: a target not held through a pointer indirection, or whose node shape
is none of the three containers, makes `Match` return no-match with the
caller's context returned exactly unchanged; these are the only failure
conditions originating in the matcher itself — on recognized shapes the
result is exactly the delegate's.  (The embedding is total, so no code path
panics.) -/
theorem c9_matcher_own_failures (m : stmtSliceContainerMatcher) (d : Data)
    (r : Region) (k kk : Nat) (f : List (String × FieldVal)) (n : Node) :
    stmtSliceContainerMatcher.Match m (Value.nonPtr k) d r = (d, false) ∧
    stmtSliceContainerMatcher.Match m (Value.ptr (Node.other kk f)) d r = (d, false) ∧
    (isContainer n = true →
      ∃ sd : stmtListData,
        m.Match (Value.ptr n) d r =
          m.Stmts n.stmtsVal (WithValue d Key.stmtListKey (DVal.stmtList sd))
            { r with Pos := n.stmtPreludeEnd r + 1 }) := by
  refine ⟨rfl, rfl, fun h => ?_⟩
  cases n with
  | blockStmt l xs rb => exact ⟨_, Match_blockStmt m l rb xs d r⟩
  | caseClause c es k2 b => exact ⟨_, Match_caseClause m c k2 es b d r⟩
  | commClause c cm k2 b => exact ⟨_, Match_commClause m c k2 cm b d r⟩
  | other k2 f2 => simp [isContainer] at h

/-- Witness for C9: concrete non-pointer, unrecognized node, and case
clause. -/
theorem c9_matcher_own_failures_witness :
    stmtSliceContainerMatcher.Match ⟨trueDelegate⟩ (Value.nonPtr 3) [] ⟨0, 9⟩ =
      ([], false) ∧
    stmtSliceContainerMatcher.Match ⟨trueDelegate⟩
        (Value.ptr (Node.other 2 [("X", FieldVal.pos 1)])) [] ⟨0, 9⟩ =
      ([], false) ∧
    ∃ sd : stmtListData,
      stmtSliceContainerMatcher.Match ⟨trueDelegate⟩
          (Value.ptr (Node.caseClause 1 [5] 10 [7])) [] ⟨0, 9⟩ =
        trueDelegate (Node.caseClause 1 [5] 10 [7]).stmtsVal
          (WithValue [] Key.stmtListKey (DVal.stmtList sd)) ⟨11, 9⟩ :=
  ⟨(c9_matcher_own_failures ⟨trueDelegate⟩ [] ⟨0, 9⟩ 3 2 [("X", FieldVal.pos 1)]
      (Node.caseClause 1 [5] 10 [7])).1,
   (c9_matcher_own_failures ⟨trueDelegate⟩ [] ⟨0, 9⟩ 3 2 [("X", FieldVal.pos 1)]
      (Node.caseClause 1 [5] 10 [7])).2.1,
   (c9_matcher_own_failures ⟨trueDelegate⟩ [] ⟨0, 9⟩ 3 2 [("X", FieldVal.pos 1)]
      (Node.caseClause 1 [5] 10 [7])).2.2 rfl⟩

/-- C3: for each of the three container shapes, `Match` with a succeeding
delegate succeeds and captures metadata whose other-fields list records the
index and value of every field except the statement-list field (`List` for
blocks, `Body` for clauses), hence has length equal to the field count minus
one; for any other shape `Match` always fails. -/
theorem c3_shape_coverage (m : stmtSliceContainerMatcher) (d : Data)
    (r : Region) (l rb c k c2 k2 : Int) (xs b b2 : List Stmt) (es : List Expr)
    (cm : Option Stmt) (kk : Nat) (f : List (String × FieldVal))
    (hS : ∀ v d' r', (m.Stmts v d' r').2 = true) :
    (∃ sd : stmtListData,
      m.Match (Value.ptr (Node.blockStmt l xs rb)) d r =
        m.Stmts (FieldVal.stmts xs)
          (WithValue d Key.stmtListKey (DVal.stmtList sd)) { r with Pos := r.Pos + 1 } ∧
      (m.Match (Value.ptr (Node.blockStmt l xs rb)) d r).2 = true ∧
      sd.StmtFieldIdx = 1 ∧
      sd.OtherFields = [⟨0, FieldVal.pos l⟩, ⟨2, FieldVal.pos rb⟩] ∧
      sd.OtherFields.length + 1 = (Node.blockStmt l xs rb).numFields) ∧
    (∃ sd : stmtListData,
      m.Match (Value.ptr (Node.caseClause c es k b)) d r =
        m.Stmts (FieldVal.stmts b)
          (WithValue d Key.stmtListKey (DVal.stmtList sd)) { r with Pos := k + 1 } ∧
      (m.Match (Value.ptr (Node.caseClause c es k b)) d r).2 = true ∧
      sd.StmtFieldIdx = 3 ∧
      sd.OtherFields =
        [⟨0, FieldVal.pos c⟩, ⟨1, FieldVal.exprs es⟩, ⟨2, FieldVal.pos k⟩] ∧
      sd.OtherFields.length + 1 = (Node.caseClause c es k b).numFields) ∧
    (∃ sd : stmtListData,
      m.Match (Value.ptr (Node.commClause c2 cm k2 b2)) d r =
        m.Stmts (FieldVal.stmts b2)
          (WithValue d Key.stmtListKey (DVal.stmtList sd)) { r with Pos := k2 + 1 } ∧
      (m.Match (Value.ptr (Node.commClause c2 cm k2 b2)) d r).2 = true ∧
      sd.StmtFieldIdx = 3 ∧
      sd.OtherFields =
        [⟨0, FieldVal.pos c2⟩, ⟨1, FieldVal.stmt cm⟩, ⟨2, FieldVal.pos k2⟩] ∧
      sd.OtherFields.length + 1 = (Node.commClause c2 cm k2 b2).numFields) ∧
    m.Match (Value.ptr (Node.other kk f)) d r = (d, false) := by
  refine ⟨⟨_, Match_blockStmt m l rb xs d r, ?_, rfl, rfl, rfl⟩,
    ⟨_, Match_caseClause m c k es b d r, ?_, rfl, rfl, rfl⟩,
    ⟨_, Match_commClause m c2 k2 cm b2 d r, ?_, rfl, rfl, rfl⟩, rfl⟩
  · rw [Match_blockStmt]; exact hS _ _ _
  · rw [Match_caseClause]; exact hS _ _ _
  · rw [Match_commClause]; exact hS _ _ _

/-- Witness for C3 with the always-succeeding delegate, at concrete nodes of
all four shapes. -/
theorem c3_shape_coverage_witness :
    (∀ (v : FieldVal) (d' : Data) (r' : Region), (trueDelegate v d' r').2 = true) ∧
    ((∃ sd : stmtListData,
      stmtSliceContainerMatcher.Match ⟨trueDelegate⟩
          (Value.ptr (Node.blockStmt 1 [5] 3)) [] ⟨0, 9⟩ =
        trueDelegate (FieldVal.stmts [5])
          (WithValue [] Key.stmtListKey (DVal.stmtList sd)) ⟨1, 9⟩ ∧
      (stmtSliceContainerMatcher.Match ⟨trueDelegate⟩
          (Value.ptr (Node.blockStmt 1 [5] 3)) [] ⟨0, 9⟩).2 = true ∧
      sd.StmtFieldIdx = 1 ∧
      sd.OtherFields = [⟨0, FieldVal.pos 1⟩, ⟨2, FieldVal.pos 3⟩] ∧
      sd.OtherFields.length + 1 = (Node.blockStmt 1 [5] 3).numFields) ∧
    (∃ sd : stmtListData,
      stmtSliceContainerMatcher.Match ⟨trueDelegate⟩
          (Value.ptr (Node.caseClause 10 [6] 12 [7])) [] ⟨0, 9⟩ =
        trueDelegate (FieldVal.stmts [7])
          (WithValue [] Key.stmtListKey (DVal.stmtList sd)) ⟨13, 9⟩ ∧
      (stmtSliceContainerMatcher.Match ⟨trueDelegate⟩
          (Value.ptr (Node.caseClause 10 [6] 12 [7])) [] ⟨0, 9⟩).2 = true ∧
      sd.StmtFieldIdx = 3 ∧
      sd.OtherFields =
        [⟨0, FieldVal.pos 10⟩, ⟨1, FieldVal.exprs [6]⟩, ⟨2, FieldVal.pos 12⟩] ∧
      sd.OtherFields.length + 1 = (Node.caseClause 10 [6] 12 [7]).numFields) ∧
    (∃ sd : stmtListData,
      stmtSliceContainerMatcher.Match ⟨trueDelegate⟩
          (Value.ptr (Node.commClause 20 (some 4) 22 [8])) [] ⟨0, 9⟩ =
        trueDelegate (FieldVal.stmts [8])
          (WithValue [] Key.stmtListKey (DVal.stmtList sd)) ⟨23, 9⟩ ∧
      (stmtSliceContainerMatcher.Match ⟨trueDelegate⟩
          (Value.ptr (Node.commClause 20 (some 4) 22 [8])) [] ⟨0, 9⟩).2 = true ∧
      sd.StmtFieldIdx = 3 ∧
      sd.OtherFields =
        [⟨0, FieldVal.pos 20⟩, ⟨1, FieldVal.stmt (some 4)⟩, ⟨2, FieldVal.pos 22⟩] ∧
      sd.OtherFields.length + 1 = (Node.commClause 20 (some 4) 22 [8]).numFields) ∧
    stmtSliceContainerMatcher.Match ⟨trueDelegate⟩
        (Value.ptr (Node.other 0 [])) [] ⟨0, 9⟩ = ([], false)) :=
  ⟨fun _ _ _ => rfl,
   c3_shape_coverage ⟨trueDelegate⟩ [] ⟨0, 9⟩ 1 3 10 12 20 22 [5] [7] [8] [6]
     (some 4) 0 [] (fun _ _ _ => rfl)⟩

/-- C6: a container match followed by a replace over the context it produced
(with a nested replacer succeeding with statements `stmts2`) reconstructs a
fresh node of exactly the captured kind whose every non-statement field
equals the corresponding field of the matched node, and whose statement
slot holds `stmts2`. -/
theorem c6_round_trip (n : Node) (d : Data) (r : Region) (R : StmtsReplacer)
    (stmts2 : List Stmt) (cl cl1 : Changelog) (pos : Int)
    (h : isContainer n = true)
    (hR : R ((stmtSliceContainerMatcher.Match ⟨trueDelegate⟩ (Value.ptr n) d r).1)
        cl (n.stmtPreludeEnd r) = (cl1, Except.ok stmts2)) :
    stmtSliceContainerReplacer.Replace ⟨R⟩
        ((stmtSliceContainerMatcher.Match ⟨trueDelegate⟩ (Value.ptr n) d r).1) cl pos
      = (cl1.Unchanged (n.stmtPreludeEnd r + 1) (n.stmtPreludeEnd r),
         Except.ok (Value.ptr (n.withStmts stmts2))) := by
  cases n with
  | blockStmt l xs rb =>
    exact Replace_ok ⟨R⟩
      ((stmtSliceContainerMatcher.Match ⟨trueDelegate⟩
        (Value.ptr (Node.blockStmt l xs rb)) d r).1) cl cl1 pos
      ⟨NodeType.blockStmt, 1, [⟨0, FieldVal.pos l⟩, ⟨2, FieldVal.pos rb⟩],
        ⟨r.Pos + 1, r.Pos⟩⟩ stmts2 rfl hR
  | caseClause c es k b =>
    exact Replace_ok ⟨R⟩
      ((stmtSliceContainerMatcher.Match ⟨trueDelegate⟩
        (Value.ptr (Node.caseClause c es k b)) d r).1) cl cl1 pos
      ⟨NodeType.caseClause, 3,
        [⟨0, FieldVal.pos c⟩, ⟨1, FieldVal.exprs es⟩, ⟨2, FieldVal.pos k⟩],
        ⟨k + 1, k⟩⟩ stmts2 rfl hR
  | commClause c cm k b =>
    exact Replace_ok ⟨R⟩
      ((stmtSliceContainerMatcher.Match ⟨trueDelegate⟩
        (Value.ptr (Node.commClause c cm k b)) d r).1) cl cl1 pos
      ⟨NodeType.commClause, 3,
        [⟨0, FieldVal.pos c⟩, ⟨1, FieldVal.stmt cm⟩, ⟨2, FieldVal.pos k⟩],
        ⟨k + 1, k⟩⟩ stmts2 rfl hR
  | other kk f => simp [isContainer] at h

/-- Witness for C6 at a concrete case clause: the case expression and
positions survive unchanged, the body is replaced, and the region `(11, 10)`
is recorded. -/
theorem c6_round_trip_witness :
    isContainer (Node.caseClause 1 [5] 10 [7]) = true ∧
    constStmtsReplacer [9]
        ((stmtSliceContainerMatcher.Match ⟨trueDelegate⟩
          (Value.ptr (Node.caseClause 1 [5] 10 [7])) [] ⟨0, 20⟩).1) ⟨[]⟩ 10 =
      (⟨[]⟩, Except.ok [9]) ∧
    stmtSliceContainerReplacer.Replace ⟨constStmtsReplacer [9]⟩
        ((stmtSliceContainerMatcher.Match ⟨trueDelegate⟩
          (Value.ptr (Node.caseClause 1 [5] 10 [7])) [] ⟨0, 20⟩).1) ⟨[]⟩ 0
      = (⟨[(11, 10)]⟩, Except.ok (Value.ptr (Node.caseClause 1 [5] 10 [9]))) :=
  ⟨rfl, rfl, c6_round_trip (Node.caseClause 1 [5] 10 [7]) [] ⟨0, 20⟩
    (constStmtsReplacer [9]) [9] ⟨[]⟩ ⟨[]⟩ 0 rfl rfl⟩

/-- C7: `Replace` fails in exactly two cases: when the context lacks the
shape-metadata key it returns the structural error "no statement matches
found" and no node; when the nested statement-list replacer fails its error
is propagated unwrapped and no node is returned; in every other case it
succeeds with a node.  (The embedding is total: no path panics.) -/
theorem c7_replace_failure_modes (R : StmtsReplacer) (d : Data)
    (cl cl1 cl2 : Changelog) (pos : Int) (sd : stmtListData) (e : String)
    (stmts : List Stmt) :
    (lookupStmtList d = none →
      stmtSliceContainerReplacer.Replace ⟨R⟩ d cl pos =
        (cl, Except.error "no statement matches found")) ∧
    (lookupStmtList d = some sd →
      R d cl sd.UnchangedRegion.End = (cl1, Except.error e) →
      stmtSliceContainerReplacer.Replace ⟨R⟩ d cl pos = (cl1, Except.error e)) ∧
    (lookupStmtList d = some sd →
      R d cl sd.UnchangedRegion.End = (cl2, Except.ok stmts) →
      ∃ v : Node, stmtSliceContainerReplacer.Replace ⟨R⟩ d cl pos =
        (cl2.Unchanged sd.UnchangedRegion.Pos sd.UnchangedRegion.End,
         Except.ok (Value.ptr v))) :=
  ⟨fun hl => Replace_noMetadata ⟨R⟩ d cl pos hl,
   fun hl hRe => Replace_nestedError ⟨R⟩ d cl cl1 pos sd e hl hRe,
   fun hl hRo => ⟨_, Replace_ok ⟨R⟩ d cl cl2 pos sd stmts hl hRo⟩⟩

/-- Witness for C7: the three branches exercised at concrete inputs. -/
theorem c7_replace_failure_modes_witness :
    (lookupStmtList [] = none ∧
     stmtSliceContainerReplacer.Replace ⟨errStmtsReplacer "x"⟩ [] ⟨[]⟩ 0 =
       (⟨[]⟩, Except.error "no statement matches found")) ∧
    (stmtSliceContainerReplacer.Replace ⟨errStmtsReplacer "x"⟩
        [(Key.stmtListKey,
          DVal.stmtList ⟨NodeType.blockStmt, 1, [], ⟨6, 5⟩⟩)] ⟨[]⟩ 0 =
       (⟨[]⟩, Except.error "x")) ∧
    (∃ v : Node, stmtSliceContainerReplacer.Replace ⟨constStmtsReplacer [1]⟩
        [(Key.stmtListKey,
          DVal.stmtList ⟨NodeType.blockStmt, 1, [], ⟨6, 5⟩⟩)] ⟨[]⟩ 0 =
       (⟨[(6, 5)]⟩, Except.ok (Value.ptr v))) :=
  ⟨⟨rfl, (c7_replace_failure_modes (errStmtsReplacer "x") [] ⟨[]⟩ ⟨[]⟩ ⟨[]⟩ 0
      ⟨NodeType.blockStmt, 1, [], ⟨6, 5⟩⟩ "x" [1]).1 rfl⟩,
   (c7_replace_failure_modes (errStmtsReplacer "x") [(Key.stmtListKey,
      DVal.stmtList ⟨NodeType.blockStmt, 1, [], ⟨6, 5⟩⟩)] ⟨[]⟩ ⟨[]⟩ ⟨[]⟩ 0
      ⟨NodeType.blockStmt, 1, [], ⟨6, 5⟩⟩ "x" [1]).2.1 rfl rfl,
   (c7_replace_failure_modes (constStmtsReplacer [1]) [(Key.stmtListKey,
      DVal.stmtList ⟨NodeType.blockStmt, 1, [], ⟨6, 5⟩⟩)] ⟨[]⟩ ⟨[]⟩ ⟨[]⟩ 0
      ⟨NodeType.blockStmt, 1, [], ⟨6, 5⟩⟩ "x" [1]).2.2 rfl rfl⟩

/-- C8: on success the container replacer invokes `Unchanged` exactly once —
the captured region's start and end, appended after everything the nested
replacer recorded, i.e. after the node is rebuilt — and on either failure
path it records nothing itself.  (The matcher cannot invoke the ledger at
all: `Match` has no `Changelog` argument or result, mirroring the Go
`Matcher` interface.) -/
theorem c8_ledger_once_on_success (R : StmtsReplacer) (d : Data)
    (cl cl1 cl2 : Changelog) (pos : Int) (sd : stmtListData) (e : String)
    (stmts : List Stmt) :
    (lookupStmtList d = none →
      (stmtSliceContainerReplacer.Replace ⟨R⟩ d cl pos).1 = cl) ∧
    (lookupStmtList d = some sd →
      R d cl sd.UnchangedRegion.End = (cl1, Except.error e) →
      (stmtSliceContainerReplacer.Replace ⟨R⟩ d cl pos).1 = cl1) ∧
    (lookupStmtList d = some sd →
      R d cl sd.UnchangedRegion.End = (cl2, Except.ok stmts) →
      (stmtSliceContainerReplacer.Replace ⟨R⟩ d cl pos).1.entries =
        cl2.entries ++ [(sd.UnchangedRegion.Pos, sd.UnchangedRegion.End)]) := by
  refine ⟨fun hl => ?_, fun hl hRe => ?_, fun hl hRo => ?_⟩
  · rw [Replace_noMetadata ⟨R⟩ d cl pos hl]
  · rw [Replace_nestedError ⟨R⟩ d cl cl1 pos sd e hl hRe]
  · rw [Replace_ok ⟨R⟩ d cl cl2 pos sd stmts hl hRo]
    rfl

/-- Witness for C8: the three ledger outcomes at concrete inputs. -/
theorem c8_ledger_once_on_success_witness :
    ((stmtSliceContainerReplacer.Replace ⟨constStmtsReplacer [1]⟩ [] ⟨[]⟩ 0).1 =
      (⟨[]⟩ : Changelog) ∧
     (stmtSliceContainerReplacer.Replace ⟨errStmtsReplacer "x"⟩
        [(Key.stmtListKey,
          DVal.stmtList ⟨NodeType.blockStmt, 1, [], ⟨6, 5⟩⟩)] ⟨[]⟩ 0).1 =
       (⟨[]⟩ : Changelog) ∧
     (stmtSliceContainerReplacer.Replace ⟨constStmtsReplacer [1]⟩
        [(Key.stmtListKey,
          DVal.stmtList ⟨NodeType.blockStmt, 1, [], ⟨6, 5⟩⟩)] ⟨[]⟩ 0).1.entries =
       (⟨[]⟩ : Changelog).entries ++ [(6, 5)]) :=
  ⟨(c8_ledger_once_on_success (constStmtsReplacer [1]) [] ⟨[]⟩ ⟨[]⟩ ⟨[]⟩ 0
      ⟨NodeType.blockStmt, 1, [], ⟨6, 5⟩⟩ "x" [1]).1 rfl,
   (c8_ledger_once_on_success (errStmtsReplacer "x") [(Key.stmtListKey,
      DVal.stmtList ⟨NodeType.blockStmt, 1, [], ⟨6, 5⟩⟩)] ⟨[]⟩ ⟨[]⟩ ⟨[]⟩ 0
      ⟨NodeType.blockStmt, 1, [], ⟨6, 5⟩⟩ "x" [1]).2.1 rfl rfl,
   (c8_ledger_once_on_success (constStmtsReplacer [1]) [(Key.stmtListKey,
      DVal.stmtList ⟨NodeType.blockStmt, 1, [], ⟨6, 5⟩⟩)] ⟨[]⟩ ⟨[]⟩ ⟨[]⟩ 0
      ⟨NodeType.blockStmt, 1, [], ⟨6, 5⟩⟩ "x" [1]).2.2 rfl rfl⟩

/-- C10: on success, `Replace` (with `reflect.New`'s allocation made
explicit) returns the reconstructed node through a fresh address — one past
every pre-existing heap index, so never a reference into the original tree,
all of whose nodes are left unmodified — holding a node of exactly the
captured container type; the returned reference has the pointer indirection
`Match` requires of its input. -/
theorem c10_fresh_allocation (R : StmtsReplacer) (d : Data) (heap : Heap)
    (cl cl1 : Changelog) (pos : Int) (sd : stmtListData) (stmts : List Stmt)
    (hl : lookupStmtList d = some sd)
    (hR : R d cl sd.UnchangedRegion.End = (cl1, Except.ok stmts)) :
    ∃ node : Node,
      stmtSliceContainerReplacer.ReplaceAlloc ⟨R⟩ d heap cl pos =
        (cl1.Unchanged sd.UnchangedRegion.Pos sd.UnchangedRegion.End,
         Except.ok (heap ++ [node], heap.length)) ∧
      nodeTypeOf node = some sd.type ∧
      (∀ i, i < heap.length → heap.length ≠ i) ∧
      (heap ++ [node]).take heap.length = heap ∧
      (heap ++ [node])[heap.length]? = some node ∧
      (Value.ptr node).isPtr = true := by
  obtain ⟨ty, idx, ofl, ur⟩ := sd
  refine ⟨_, ReplaceAlloc_ok ⟨R⟩ d heap cl cl1 pos ⟨ty, idx, ofl, ur⟩ stmts hl hR,
    ?_, fun i hi => Nat.ne_of_gt hi, List.take_left heap _,
    List.getElem?_concat_length heap _, rfl⟩
  cases ty <;> rfl

/-- Witness for C10: a concrete replace over a one-node heap allocates at
the fresh address 1 and leaves the original node at address 0 intact. -/
theorem c10_fresh_allocation_witness :
    lookupStmtList [(Key.stmtListKey,
        DVal.stmtList ⟨NodeType.blockStmt, 1,
          [⟨0, FieldVal.pos 5⟩, ⟨2, FieldVal.pos 9⟩], ⟨6, 5⟩⟩)] =
      some ⟨NodeType.blockStmt, 1,
        [⟨0, FieldVal.pos 5⟩, ⟨2, FieldVal.pos 9⟩], ⟨6, 5⟩⟩ ∧
    ∃ node : Node,
      stmtSliceContainerReplacer.ReplaceAlloc ⟨constStmtsReplacer [9]⟩
          [(Key.stmtListKey,
            DVal.stmtList ⟨NodeType.blockStmt, 1,
              [⟨0, FieldVal.pos 5⟩, ⟨2, FieldVal.pos 9⟩], ⟨6, 5⟩⟩)]
          [Node.blockStmt 5 [7] 9] ⟨[]⟩ 0 =
        (⟨[(6, 5)]⟩, Except.ok ([Node.blockStmt 5 [7] 9] ++ [node], 1)) ∧
      nodeTypeOf node = some NodeType.blockStmt ∧
      (∀ i, i < 1 → 1 ≠ i) ∧
      ([Node.blockStmt 5 [7] 9] ++ [node]).take 1 = [Node.blockStmt 5 [7] 9] ∧
      ([Node.blockStmt 5 [7] 9] ++ [node])[(1 : Nat)]? = some node ∧
      (Value.ptr node).isPtr = true :=
  ⟨rfl, c10_fresh_allocation (constStmtsReplacer [9])
    [(Key.stmtListKey,
      DVal.stmtList ⟨NodeType.blockStmt, 1,
        [⟨0, FieldVal.pos 5⟩, ⟨2, FieldVal.pos 9⟩], ⟨6, 5⟩⟩)]
    [Node.blockStmt 5 [7] 9] ⟨[]⟩ ⟨[]⟩ 0
    ⟨NodeType.blockStmt, 1, [⟨0, FieldVal.pos 5⟩, ⟨2, FieldVal.pos 9⟩], ⟨6, 5⟩⟩
    [9] rfl rfl⟩

end GoPatch
